import Mathlib

/-!
Shallow embedding of the Mini-Games repository (three Tkinter toys:
`connect-four.py`, `tic-tac-toe.py`, `calculator.py`) and proofs about the
game-state and win-detection logic described in the design spec.

Only the rendering / widget glue is omitted; every state field the event
handlers read or write, and every branch of the handlers, is modelled.
-/

deriving instance DecidableEq for Except

namespace ConnectFour

/-- A disc colour.  The source stores the strings "red" and "gold"
(`RED = "red"`, `YELLOW = "gold"`); we use an enumeration. -/
inductive Player where
  | red
  | yellow
deriving DecidableEq, Repr

/-- `ROWS = 6` in the source. -/
def ROWS : Int := 6

/-- `COLS = 7` in the source. -/
def COLS : Int := 7

/-- A board cell: `None`, or the colour of a placed disc.  The source keeps
`self.board` as a ROWS×COLS list of lists; we model it as a total function on
integer coordinates, only ever read at in-bounds points (every read in the
source is bounds-guarded). -/
def Board := Int → Int → Option Player

/-- Functional update of a single cell, `self.board[row][col] = v`. -/
def setCell (b : Board) (row col : Int) (v : Option Player) : Board :=
  fun r c => if r = row ∧ c = col then v else b r c

/-- The all-`None` board built by `__init__` and `reset_game`. -/
def emptyBoard : Board := fun _ _ => none

/-- The direction list of `_check_winner`, in source order:
horizontal, vertical, diagonal down-right, diagonal down-left. -/
def directions : List (Int × Int) := [(0, 1), (1, 0), (1, 1), (1, -1)]

/-- One `while` loop of `_check_winner`: starting at `(r, c)`, keep stepping by
`(dr, dc)` while the position is in bounds and holds `color`, collecting the
visited coordinates in visit order.  The loop body runs at most
`max ROWS COLS = 7` times (each iteration needs an in-bounds position and the
position moves one step in a fixed non-zero direction), so any fuel ≥ 7 gives
exactly the loop's behaviour; we pass `ROWS + COLS = 13`. -/
def walk (b : Board) (color : Player) (dr dc : Int) :
    Nat → Int → Int → List (Int × Int)
  | 0, _, _ => []
  | fuel + 1, r, c =>
    if 0 ≤ r ∧ r < ROWS ∧ 0 ≤ c ∧ c < COLS ∧ b r c = some color then
      (r, c) :: walk b color dr dc fuel (r + dr) (c + dc)
    else []

/-- Fuel passed to `walk`; any value ≥ 7 is equivalent (see `walk`). -/
def walkFuel : Nat := (ROWS + COLS).toNat

/-- The coordinate list `_check_winner` builds for one direction: the freshly
placed piece, then the run in the positive direction, then the run in the
negative direction. -/
def lineCoords (b : Board) (color : Player) (row col dr dc : Int) :
    List (Int × Int) :=
  (row, col) ::
    (walk b color dr dc walkFuel (row + dr) (col + dc) ++
      walk b color (-dr) (-dc) walkFuel (row - dr) (col - dc))

/-- The direction loop of `_check_winner`: return on the first direction whose
coordinate list has length ≥ 4. -/
def checkWinnerAux (b : Board) (color : Player) (row col : Int) :
    List (Int × Int) → Option Player × List (Int × Int)
  | [] => (none, [])
  | (dr, dc) :: rest =>
    let coords := lineCoords b color row col dr dc
    if 4 ≤ coords.length then (some color, coords)
    else checkWinnerAux b color row col rest

/-- `_check_winner(self, row, col)`.  The source reads the just-moved colour
from `self.current_player`; here it is the explicit argument `color`.
Returns `(winning_color, coords_list)` or `(none, [])`. -/
def checkWinner (b : Board) (row col : Int) (color : Player) :
    Option Player × List (Int × Int) :=
  checkWinnerAux b color row col directions

/-- `range(ROWS - 1, -1, -1)`: the row indices scanned bottom-up. -/
def rowsDesc : List Int := [5, 4, 3, 2, 1, 0]

/-- The bottom-up scan of `_on_click`: the first row from the bottom whose cell
in `col` is empty (`target_row`), or `none` when the column is full. -/
def targetRow (b : Board) (col : Int) : Option Int :=
  rowsDesc.find? fun r => decide (b r col = none)

/-- `range(COLS)`: the column indices of the top row. -/
def colsList : List Int := [0, 1, 2, 3, 4, 5, 6]

/-- `_is_board_full`: the top row has no empty cell. -/
def isBoardFull (b : Board) : Bool :=
  colsList.all fun c => decide (b 0 c ≠ none)

/-- The game state fields of the `ConnectFour` object that the handlers read
and write (`hover_col` and the widgets are pure presentation and omitted). -/
structure GameState where
  board : Board
  current_player : Player
  game_over : Bool
  win_coords : List (Int × Int)

/-- The user-visible effect of one click, standing in for the source's early
returns and message boxes: `ignored` (game over, or click outside the board),
`columnFull` (the "Column Full" notice), or `played` (a disc was placed). -/
inductive ClickOutcome where
  | ignored
  | columnFull
  | played
deriving DecidableEq, Repr

/-- The other player, `self.YELLOW if self.current_player == self.RED else
self.RED`. -/
def otherPlayer : Player → Player
  | .red => .yellow
  | .yellow => .red

/-- `_on_click`, with the pixel-to-column conversion already done: `col` is
`event.x // CELL`.  Returns the updated state and the outcome. -/
def onClick (s : GameState) (col : Int) : GameState × ClickOutcome :=
  if s.game_over then (s, .ignored)
  else if ¬(0 ≤ col ∧ col < COLS) then (s, .ignored)
  else
    match targetRow s.board col with
    | none => (s, .columnFull)
    | some row =>
      let b := setCell s.board row col (some s.current_player)
      match checkWinner b row col s.current_player with
      | (some _, coords) =>
        ({ s with board := b, game_over := true, win_coords := coords },
          .played)
      | (none, _) =>
        if isBoardFull b then
          ({ s with board := b, game_over := true }, .played)
        else
          let p := otherPlayer s.current_player
          ({ s with board := b, current_player := p }, .played)

/-- `reset_game` (and equally `__init__`): fresh empty board, red to move,
game not over, no winning line. -/
def resetGame (_ : GameState) : GameState :=
  { board := emptyBoard
    current_player := .red
    game_over := false
    win_coords := [] }

/-- The state right after `__init__`. -/
def initState : GameState := resetGame ⟨emptyBoard, .red, false, []⟩

/-- Result of the spec's `drop(column)` operation: either the column is full,
or a disc was placed at `(row, col)` yielding the new board. -/
inductive DropResult where
  | columnFull
  | placed (row col : Int) (b : Board)

/-- The spec's `drop(column)` operation: the board-mutating fragment of
`_on_click` (bottom-up scan for `target_row`, "Column Full" when none,
otherwise `self.board[target_row][col] = self.current_player`). -/
def drop (b : Board) (p : Player) (col : Int) : DropResult :=
  match targetRow b col with
  | none => .columnFull
  | some row => .placed row col (setCell b row col (some p))

/-- Apply `drop` keeping only the board, ignoring a full column — used to
build the spec's test scenario where one player moves repeatedly. -/
def forceDrop (b : Board) (p : Player) (col : Int) : Board :=
  match drop b p col with
  | .columnFull => b
  | .placed _ _ b2 => b2

/-- Three red discs dropped into column 3 of the empty board. -/
def colThreeThrice : Board :=
  forceDrop (forceDrop (forceDrop emptyBoard .red 3) .red 3) .red 3

/-- Four red discs dropped into column 3 of the empty board. -/
def colThreeFour : Board := forceDrop colThreeThrice .red 3

/-- Horizontal mirror of a board: column `c` shows the original's column
`6 - c` (`COLS - 1 - c`). -/
def mirrorBoard (b : Board) : Board := fun r c => b r (6 - c)

/-- A board on which one move at `(2,3)` completed both diagonals at once:
red runs (2,3)–(5,6) down-right and (2,3)–(5,0) down-left. -/
def bothDiags : Board :=
  setCell (setCell (setCell (setCell (setCell (setCell (setCell emptyBoard
    2 3 (some .red)) 3 4 (some .red)) 4 5 (some .red)) 5 6 (some .red))
    3 2 (some .red)) 4 1 (some .red)) 5 0 (some .red)

/-- The states reachable from a fresh game through clicks and resets. -/
inductive Reachable : GameState → Prop where
  | init : Reachable initState
  | step (s : GameState) (col : Int) : Reachable s → Reachable (onClick s col).1
  | reset (s0 : GameState) : Reachable s0 → Reachable (resetGame s0)

/-- Gravity discipline: below any occupied cell sits an occupied cell. -/
def Gravity (b : Board) : Prop :=
  ∀ r c : Int, 0 ≤ r → r + 1 < ROWS → 0 ≤ c → c < COLS →
    b r c ≠ none → b (r + 1) c ≠ none

/-- A running game whose column 0 holds six red discs. -/
def fullColState : GameState :=
  { board := fun _ c => if c = 0 then some .red else none
    current_player := .red
    game_over := false
    win_coords := [] }

/-- A finished game used to witness C6. -/
def wonState : GameState :=
  { board := setCell emptyBoard 5 0 (some .red)
    current_player := .red
    game_over := true
    win_coords := [(5, 0)] }

/-- A running game with one red disc at `(5, 0)`, used to witness C7. -/
def oneDiscState : GameState :=
  { board := setCell emptyBoard 5 0 (some .red)
    current_player := .yellow
    game_over := false
    win_coords := [] }

end ConnectFour

namespace TicTacToe

/-- A marker: `X = "X"`, `O = "O"` in the source. -/
inductive Mark where
  | X
  | O
deriving DecidableEq, Repr

/-- A cell of the 3×3 board: `None` or a marker.  As for Connect Four we use
a total function, read only at the nine in-range points. -/
def Board := Nat → Nat → Option Mark

/-- `self.board[row][col] = v`. -/
def setCell (b : Board) (row col : Nat) (v : Option Mark) : Board :=
  fun r c => if r = row ∧ c = col then v else b r c

/-- The all-`None` board of `__init__` / `reset_game`. -/
def emptyBoard : Board := fun _ _ => none

/-- `range(SIZE)` with `SIZE = 3`. -/
def idxList : List Nat := [0, 1, 2]

/-- `all(b[r][c] == b[r][0] for c in range(s))`. -/
def rowAll (b : Board) (r : Nat) : Bool :=
  idxList.all fun c => decide (b r c = b r 0)

/-- `all(b[r][c] == b[0][c] for r in range(s))`. -/
def colAll (b : Board) (c : Nat) : Bool :=
  idxList.all fun r => decide (b r c = b 0 c)

/-- `all(b[i][i] == b[0][0] for i in range(s))`. -/
def diagAll (b : Board) : Bool :=
  idxList.all fun i => decide (b i i = b 0 0)

/-- `all(b[i][s-1-i] == b[0][s-1] for i in range(s))`. -/
def adiagAll (b : Board) : Bool :=
  idxList.all fun i => decide (b i (2 - i) = b 0 2)

/-- `_check_winner`: rows first (lowest index wins the early `return`), then
columns, then the main diagonal, then the anti-diagonal.
Returns `(winner, coords)` or `(none, [])`. -/
def checkWinner (b : Board) : Option Mark × List (Nat × Nat) :=
  match idxList.find? (fun r => (b r 0).isSome && rowAll b r) with
  | some r => (b r 0, [(r, 0), (r, 1), (r, 2)])
  | none =>
    match idxList.find? (fun c => (b 0 c).isSome && colAll b c) with
    | some c => (b 0 c, [(0, c), (1, c), (2, c)])
    | none =>
      if (b 0 0).isSome && diagAll b then (b 0 0, [(0, 0), (1, 1), (2, 2)])
      else if (b 0 2).isSome && adiagAll b then
        (b 0 2, [(0, 2), (1, 1), (2, 0)])
      else (none, [])

/-- `_is_board_full`: every square is filled. -/
def isBoardFull (b : Board) : Bool :=
  idxList.all fun r => idxList.all fun c => (b r c).isSome

/-- The game state fields of the `TicTacToe` object the handlers read and
write (buttons and labels are presentation). -/
structure GameState where
  board : Board
  current_player : Mark
  game_over : Bool

/-- `self.O if self.current_player == self.X else self.X`. -/
def otherMark : Mark → Mark
  | .X => .O
  | .O => .X

/-- `_on_click(row, col)`.  Note the two silent early returns: game already
over, and cell already filled. -/
def onClick (s : GameState) (row col : Nat) : GameState :=
  if s.game_over then s
  else if (s.board row col).isSome then s
  else
    let b := setCell s.board row col (some s.current_player)
    match checkWinner b with
    | (some _, _) => { s with board := b, game_over := true }
    | (none, _) =>
      if isBoardFull b then { s with board := b, game_over := true }
      else
        let p := otherMark s.current_player
        { s with board := b, current_player := p }

/-- A running game in which X already owns the corner `(0, 0)`. -/
def xCornerState : GameState :=
  { board := setCell emptyBoard 0 0 (some .X)
    current_player := .O
    game_over := false }

end TicTacToe

namespace Calculator

/-- The Python exceptions the calculator handler can raise: the guarded
`ZeroDivisionError` of `stored_value / current`, the `ValueError` of
`float(...)` on a non-numeric string, and the `NameError` of reading
`result` when no operation branch assigned it. -/
inductive PyExc where
  | zeroDivisionError
  | valueError
  | nameError
deriving DecidableEq, Repr

/-- The value of a list of decimal digit characters. -/
def digitsVal (l : List Char) : Nat :=
  l.foldl (fun a c => a * 10 + (c.toNat - 48)) 0

/-- Python's `float(string)`, idealized over exact rationals, on the shapes
of string this program can display: an optional sign, digits, an optional
point, digits (with at least one digit).  Anything else — in particular the
display text "Error" — raises `ValueError`.  (Real `float()` also accepts
exponents, inf/nan and whitespace; the program never produces those.) -/
def pyFloat (input : String) : Except PyExc Rat :=
  let (neg, body) :=
    match input.toList with
    | '-' :: t => (true, t)
    | '+' :: t => (false, t)
    | t => (false, t)
  let intPart := body.takeWhile fun c => c ≠ '.'
  let rest := body.dropWhile fun c => c ≠ '.'
  let fracPart := rest.drop 1
  if intPart.all Char.isDigit && fracPart.all Char.isDigit
      && (!intPart.isEmpty || !fracPart.isEmpty) then
    let numAbs : Nat :=
      digitsVal intPart * 10 ^ fracPart.length + digitsVal fracPart
    let mag : Rat := mkRat (Int.ofNat numAbs) (10 ^ fracPart.length)
    .ok (if neg then -mag else mag)
  else .error .valueError

/-- Multiplicity of a factor `p ≥ 2` in `n`, with the remaining cofactor. -/
def stripFactor (p : Nat) (n : Nat) : Nat × Nat :=
  if h : 2 ≤ p ∧ 1 ≤ n ∧ n % p = 0 then
    let r := stripFactor p (n / p)
    (r.1 + 1, r.2)
  else (0, n)
termination_by n
decreasing_by
  exact Nat.div_lt_self (by omega) (by omega)

/-- Python's `str(float)`, idealized over exact rationals: integral values
print as `"n.0"`, values with a terminating decimal expansion print that
expansion (these agree with CPython's shortest-round-trip repr whenever the
value is exactly representable).  Non-terminating rationals fall back to a
fraction rendering: there CPython would print digits of the nearest binary
float, which has no exact-rational counterpart; no theorem below evaluates
this branch. -/
def pyStr (q : Rat) : String :=
  if q.den = 1 then toString q.num ++ ".0"
  else
    let a := (stripFactor 2 q.den).1
    let rest2 := (stripFactor 2 q.den).2
    let b := (stripFactor 5 rest2).1
    let rest5 := (stripFactor 5 rest2).2
    if rest5 = 1 then
      let k := max a b
      let n := q.num.natAbs * 10 ^ k / q.den
      let s := toString n
      let s := if s.length ≤ k then
          String.mk (List.replicate (k + 1 - s.length) '0') ++ s
        else s
      (if q.num < 0 then "-" else "") ++ s.dropRight k ++ "." ++ s.takeRight k
    else toString q.num ++ "/" ++ toString q.den

/-- The calculator's state: the display `StringVar`, the pending operation
(`None` or one of `'+','-','*','/'`), the stored left operand, and the
flag that makes the next digit replace the display. -/
structure CalcState where
  current_input : String
  operation : Option Char
  stored_value : Rat
  reset_screen : Bool
deriving DecidableEq, Repr

/-- The state `__init__` builds. -/
def initState : CalcState :=
  { current_input := "0", operation := none, stored_value := 0,
    reset_screen := false }

/-- The `try` body of `_calculate` (lines 100–112): parse the display, apply
the pending operation, write back the result.  `float(...)` can raise
`ValueError` (not caught by the `except`); `/` raises `ZeroDivisionError`
on a zero divisor; with no pending operation `result` is never assigned and
line 110 raises a `NameError`. -/
def calculateBody (s : CalcState) : Except PyExc CalcState := do
  let current ← pyFloat s.current_input
  let result ←
    match s.operation with
    | some '+' => Except.ok (s.stored_value + current)
    | some '-' => Except.ok (s.stored_value - current)
    | some '*' => Except.ok (s.stored_value * current)
    | some '/' =>
      if current = 0 then Except.error PyExc.zeroDivisionError
      else Except.ok (s.stored_value / current)
    | _ => Except.error PyExc.nameError
  Except.ok { s with current_input := pyStr result, stored_value := result,
                     reset_screen := true }

/-- `_calculate`: the `try` body with its single `except ZeroDivisionError`
handler, which sets the display to "Error".  Every other exception
propagates. -/
def calculate (s : CalcState) : Except PyExc CalcState :=
  match calculateBody s with
  | .error .zeroDivisionError =>
    .ok { s with current_input := "Error", reset_screen := true }
  | r => r

/-- `_on_button_click(symbol)`.  Note that in the operator branch the source
calls `_calculate()` first and then parses `current`, the display string
read at the top of the handler, before the call. -/
def onButtonClick (s : CalcState) (symbol : Char) : Except PyExc CalcState :=
  let current := s.current_input
  if ("0123456789".toList).contains symbol then
    .ok (if current = "0" || s.reset_screen then
        { s with current_input := String.singleton symbol,
                 reset_screen := false }
      else { s with current_input := current.push symbol })
  else if symbol = 'C' then
    .ok { s with current_input := "0", stored_value := 0, operation := none }
  else if ("+-*/".toList).contains symbol then do
    let s1 ← if s.operation.isSome && !s.reset_screen then calculate s
      else .ok s
    let v ← pyFloat current
    .ok { s1 with stored_value := v, operation := some symbol,
                  reset_screen := true }
  else if symbol = '=' then
    if s.operation.isSome then do
      let s1 ← calculate s
      .ok { s1 with operation := none }
    else .ok s
  else .ok s

/-- A whole sequence of button presses starting from the freshly built
calculator; `.error e` means some press propagated the uncaught Python
exception `e` out of the handler. -/
def pressSeq (syms : List Char) : Except PyExc CalcState :=
  syms.foldlM onButtonClick initState

end Calculator

namespace ConnectFour

theorem mem_rowsDesc (r : Int) : r ∈ rowsDesc ↔ 0 ≤ r ∧ r < ROWS := by
  simp [rowsDesc, ROWS]
  omega

theorem targetRow_eq_none_iff (b : Board) (col : Int) :
    targetRow b col = none ↔ ∀ r : Int, 0 ≤ r → r < ROWS → b r col ≠ none := by
  rw [targetRow, List.find?_eq_none]
  constructor
  · intro h r h0 h6
    have := h r ((mem_rowsDesc r).mpr ⟨h0, h6⟩)
    simpa using this
  · intro h r hr
    obtain ⟨h0, h6⟩ := (mem_rowsDesc r).mp hr
    simpa using h r h0 h6

theorem targetRow_spec (b : Board) (col r : Int) (h : targetRow b col = some r) :
    0 ≤ r ∧ r < ROWS ∧ b r col = none ∧
      ∀ r', r < r' → r' < ROWS → b r' col ≠ none := by
  by_cases h5 : b 5 col = none <;> by_cases h4 : b 4 col = none <;>
    by_cases h3 : b 3 col = none <;> by_cases h2 : b 2 col = none <;>
    by_cases h1 : b 1 col = none <;> by_cases h0 : b 0 col = none <;>
    simp [targetRow, rowsDesc, List.find?, h5, h4, h3, h2, h1, h0] at h <;>
    subst h <;>
    refine ⟨by norm_num, by norm_num [ROWS], by assumption, ?_⟩ <;>
    · intro r' hgt hlt
      norm_num [ROWS] at hlt
      interval_cases r' <;> assumption

theorem targetRow_of_lowest (b : Board) (col r : Int) (h0 : 0 ≤ r)
    (h6 : r < ROWS) (he : b r col = none)
    (hocc : ∀ r', r < r' → r' < ROWS → b r' col ≠ none) :
    targetRow b col = some r := by
  norm_num [ROWS] at h6 hocc
  interval_cases r
  · have o1 := hocc 1 (by norm_num) (by norm_num)
    have o2 := hocc 2 (by norm_num) (by norm_num)
    have o3 := hocc 3 (by norm_num) (by norm_num)
    have o4 := hocc 4 (by norm_num) (by norm_num)
    have o5 := hocc 5 (by norm_num) (by norm_num)
    simp [targetRow, rowsDesc, List.find?, he, o1, o2, o3, o4, o5]
  · have o2 := hocc 2 (by norm_num) (by norm_num)
    have o3 := hocc 3 (by norm_num) (by norm_num)
    have o4 := hocc 4 (by norm_num) (by norm_num)
    have o5 := hocc 5 (by norm_num) (by norm_num)
    simp [targetRow, rowsDesc, List.find?, he, o2, o3, o4, o5]
  · have o3 := hocc 3 (by norm_num) (by norm_num)
    have o4 := hocc 4 (by norm_num) (by norm_num)
    have o5 := hocc 5 (by norm_num) (by norm_num)
    simp [targetRow, rowsDesc, List.find?, he, o3, o4, o5]
  · have o4 := hocc 4 (by norm_num) (by norm_num)
    have o5 := hocc 5 (by norm_num) (by norm_num)
    simp [targetRow, rowsDesc, List.find?, he, o4, o5]
  · have o5 := hocc 5 (by norm_num) (by norm_num)
    simp [targetRow, rowsDesc, List.find?, he, o5]
  · simp [targetRow, rowsDesc, List.find?, he]

theorem setCell_eq (b : Board) (row col : Int) (v : Option Player) :
    setCell b row col v row col = v := by
  simp [setCell]

theorem setCell_ne (b : Board) (row col : Int) (v : Option Player)
    (r c : Int) (h : ¬(r = row ∧ c = col)) :
    setCell b row col v r c = b r c := by
  simp [setCell, h]

/-- **C2.** For every column index `0 ≤ col < 7`, `drop` scans bottom-up for
the lowest unoccupied row: if every row of the column is occupied it fails
with `columnFull`; otherwise, for the row `r` that is empty with all rows
below it occupied, it places `CurrentPlayer` exactly at `(r, col)` — that
cell becomes the player's and every other cell is untouched — and returns
the placed `(r, col)`. -/
theorem drop_lowest_empty (b : Board) (p : Player) (col : Int)
    (_hcol : 0 ≤ col ∧ col < COLS) :
    ((∀ r : Int, 0 ≤ r → r < ROWS → b r col ≠ none) →
        drop b p col = .columnFull) ∧
      (∀ r : Int, 0 ≤ r → r < ROWS → b r col = none →
        (∀ r', r < r' → r' < ROWS → b r' col ≠ none) →
        ∃ b2, drop b p col = .placed r col b2 ∧ b2 r col = some p ∧
          ∀ r' c', ¬(r' = r ∧ c' = col) → b2 r' c' = b r' c') := by
  constructor
  · intro hfull
    rw [drop, (targetRow_eq_none_iff b col).mpr hfull]
  · intro r h0 h6 he hocc
    refine ⟨setCell b r col (some p), ?_, setCell_eq b r col (some p), ?_⟩
    · rw [drop, targetRow_of_lowest b col r h0 h6 he hocc]
    · intro r' c' hne
      exact setCell_ne b r col (some p) r' c' hne

/-- Witness for C2: dropping on the empty board in column 0 places at the
bottom row `(5, 0)`. -/
theorem drop_lowest_empty_witness :
    ∃ b2, drop emptyBoard .red 0 = .placed 5 0 b2 ∧ b2 5 0 = some .red ∧
      ∀ r' c', ¬(r' = 5 ∧ c' = 0) → b2 r' c' = emptyBoard r' c' :=
  (drop_lowest_empty emptyBoard .red 0 (by norm_num [COLS])).2 5 (by norm_num)
    (by norm_num [ROWS]) rfl
    (by intro r' h1 h2; norm_num [ROWS] at h2; omega)

/-- **C3.** Clicking a full column while the game is running surfaces the
"Column Full" notice and leaves the whole game state — board, current
player, game-over flag and winning line — unchanged. -/
theorem fullColumn_click_rejected (s : GameState) (col : Int)
    (hg : s.game_over = false) (hcol : 0 ≤ col ∧ col < COLS)
    (hfull : ∀ r : Int, 0 ≤ r → r < ROWS → s.board r col ≠ none) :
    onClick s col = (s, .columnFull) := by
  rw [onClick, hg, (targetRow_eq_none_iff s.board col).mpr hfull]
  simp [hcol]

/-- Witness for C3: the click on the full column 0 is rejected with the
state unchanged. -/
theorem fullColumn_click_rejected_witness :
    onClick fullColState 0 = (fullColState, .columnFull) :=
  fullColumn_click_rejected fullColState 0 rfl (by norm_num [COLS])
    (by intro r _ _; simp [fullColState])

/-- **C6.** The terminal states are absorbing: once `game_over` is set, any
further click returns the state unchanged (and is silently ignored), and
`reset_game` is the only operation that leaves the terminal state. -/
theorem terminal_absorbing (s : GameState) (col : Int)
    (h : s.game_over = true) :
    onClick s col = (s, .ignored) ∧ (resetGame s).game_over = false := by
  constructor
  · rw [onClick, h]
    simp
  · rfl

/-- Witness for C6: clicking the finished game changes nothing, and reset
leaves the terminal state. -/
theorem terminal_absorbing_witness :
    onClick wonState 0 = (wonState, .ignored) ∧
      (resetGame wonState).game_over = false :=
  terminal_absorbing wonState 0 rfl

/-- **C7.** Cells are monotonic: a non-empty cell is never changed by a
click (it can only have gone `Empty → player`), and only `reset_game`
empties cells — after a reset every cell is `Empty` again. -/
theorem cell_monotonic (s : GameState) (col r c : Int)
    (h : s.board r c ≠ none) :
    ((onClick s col).1).board r c = s.board r c ∧
      (resetGame s).board r c = none := by
  refine ⟨?_, rfl⟩
  rw [onClick]
  split
  · rfl
  split
  · rfl
  split
  · rfl
  rename_i row htr
  have hspec := targetRow_spec s.board col row htr
  have hne : ¬(r = row ∧ c = col) := by
    rintro ⟨rfl, rfl⟩
    exact h hspec.2.2.1
  dsimp only
  split
  · exact setCell_ne _ _ _ _ _ _ hne
  · split <;> exact setCell_ne _ _ _ _ _ _ hne

/-- Witness for C7 at the occupied cell `(5, 0)`. -/
theorem cell_monotonic_witness :
    ((onClick oneDiscState 0).1).board 5 0 = oneDiscState.board 5 0 ∧
      (resetGame oneDiscState).board 5 0 = none :=
  cell_monotonic oneDiscState 0 5 0 (by simp [oneDiscState, setCell])

/-- **C1.** `_check_winner` implements first-match over the direction list
`[(0,1), (1,0), (1,1), (1,-1)]`: it returns `(some player, coords)` for the
first direction whose outward walk from the placed cell (origin included)
collects at least 4 coordinates, with `coords` exactly that walk's list,
and `(none, [])` when no direction reaches 4. -/
theorem checkWinner_firstDirection (b : Board) (row col : Int) (p : Player) :
    checkWinner b row col p =
      match directions.find?
          (fun d => decide (4 ≤ (lineCoords b p row col d.1 d.2).length)) with
      | some d => (some p, lineCoords b p row col d.1 d.2)
      | none => (none, []) := by
  by_cases h1 : 4 ≤ (lineCoords b p row col 0 1).length <;>
    by_cases h2 : 4 ≤ (lineCoords b p row col 1 0).length <;>
    by_cases h3 : 4 ≤ (lineCoords b p row col 1 1).length <;>
    by_cases h4 : 4 ≤ (lineCoords b p row col 1 (-1)).length <;>
    simp [checkWinner, directions, checkWinnerAux, List.find?, h1, h2, h3, h4]

/-- **C4 (counterexample).** After four red drops into column 3 of the empty
board the fourth disc lands at `(2, 3)`, but `_check_winner` there does not
return the spec's list `[(5,3), (4,3), (3,3), (2,3)]` (the origin cell comes
first, not last). -/
theorem fourInColumn_counterexample :
    drop colThreeThrice .red 3
        = .placed 2 3 (setCell colThreeThrice 2 3 (some .red)) ∧
      checkWinner colThreeFour 2 3 .red
        ≠ (some .red, [(5, 3), (4, 3), (3, 3), (2, 3)]) :=
  ⟨rfl, by decide⟩

/-- **C4 (amended).** After four red drops into column 3 the fourth disc
lands at `(2, 3)` and `_check_winner` reports red winning with exactly
`[(2,3), (3,3), (4,3), (5,3)]` — the same four cells, origin first, then
the downward run. -/
theorem fourInColumn_amended :
    drop colThreeThrice .red 3
        = .placed 2 3 (setCell colThreeThrice 2 3 (some .red)) ∧
      checkWinner colThreeFour 2 3 .red
        = (some .red, [(2, 3), (3, 3), (4, 3), (5, 3)]) :=
  ⟨rfl, by decide⟩

theorem gravity_empty : Gravity emptyBoard := by
  intro r c _ _ _ _ hne
  exact absurd rfl hne

theorem gravity_setCell (b : Board) (p : Player) (row col : Int)
    (hocc : ∀ r', row < r' → r' < ROWS → b r' col ≠ none)
    (hg : Gravity b) :
    Gravity (setCell b row col (some p)) := by
  intro r c h0 h6 hc0 hc7 hne
  by_cases htop : r + 1 = row ∧ c = col
  · simp [setCell, htop]
  · rw [setCell_ne b row col (some p) (r + 1) c htop]
    by_cases hcur : r = row ∧ c = col
    · obtain ⟨rfl, rfl⟩ := hcur
      exact hocc (r + 1) (by omega) h6
    · rw [setCell_ne b row col (some p) r c hcur] at hne
      exact hg r c h0 h6 hc0 hc7 hne

theorem reachable_gravity (s : GameState) (h : Reachable s) :
    Gravity s.board := by
  induction h with
  | init => exact gravity_empty
  | reset s0 _ _ => exact gravity_empty
  | step s col _ ih =>
    rw [onClick]
    split
    · exact ih
    split
    · exact ih
    split
    · exact ih
    rename_i row htr
    have hspec := targetRow_spec s.board col row htr
    dsimp only
    split
    · exact gravity_setCell s.board s.current_player row col hspec.2.2.2 ih
    · split <;>
        exact gravity_setCell s.board s.current_player row col hspec.2.2.2 ih

theorem isBoardFull_iff_top (b : Board) :
    isBoardFull b = true ↔ ∀ c : Int, 0 ≤ c → c < COLS → b 0 c ≠ none := by
  rw [isBoardFull, List.all_eq_true]
  have hC : COLS = 7 := rfl
  constructor
  · intro h c hc0 hc7
    have hc : c ∈ colsList := by
      rw [hC] at hc7
      simp only [colsList, List.mem_cons, List.mem_singleton]
      omega
    simpa using h c hc
  · intro h c hc
    simp only [colsList, List.mem_cons, List.not_mem_nil, or_false,
      List.mem_singleton] at hc
    have hb : 0 ≤ c ∧ c < COLS := by rw [hC]; omega
    simpa using h c hb.1 hb.2

theorem gravity_column_full (b : Board) (hg : Gravity b) (c : Int)
    (hc0 : 0 ≤ c) (hc7 : c < COLS) (htop : b 0 c ≠ none) :
    ∀ r : Int, 0 ≤ r → r < ROWS → b r c ≠ none := by
  have hR : ROWS = 6 := rfl
  have g1 : b 1 c ≠ none := by
    have h := hg 0 c le_rfl (by rw [hR]; omega) hc0 hc7 htop
    norm_num at h
    exact h
  have g2 : b 2 c ≠ none := by
    have h := hg 1 c (by omega) (by rw [hR]; omega) hc0 hc7 g1
    norm_num at h
    exact h
  have g3 : b 3 c ≠ none := by
    have h := hg 2 c (by omega) (by rw [hR]; omega) hc0 hc7 g2
    norm_num at h
    exact h
  have g4 : b 4 c ≠ none := by
    have h := hg 3 c (by omega) (by rw [hR]; omega) hc0 hc7 g3
    norm_num at h
    exact h
  have g5 : b 5 c ≠ none := by
    have h := hg 4 c (by omega) (by rw [hR]; omega) hc0 hc7 g4
    norm_num at h
    exact h
  intro r hr0 hr6
  rw [hR] at hr6
  interval_cases r <;> assumption

/-- **C5.** On every state reachable from the fresh game by clicks and
resets, the top-row shortcut `_is_board_full` is exact: it returns `true`
iff every cell of the whole grid is occupied. -/
theorem isBoardFull_iff_all (s : GameState) (h : Reachable s) :
    isBoardFull s.board = true ↔
      ∀ r c : Int, 0 ≤ r → r < ROWS → 0 ≤ c → c < COLS →
        s.board r c ≠ none := by
  have hg := reachable_gravity s h
  constructor
  · intro hfull r c hr0 hr6 hc0 hc7
    exact gravity_column_full s.board hg c hc0 hc7
      ((isBoardFull_iff_top s.board).mp hfull c hc0 hc7) r hr0 hr6
  · intro hall
    refine (isBoardFull_iff_top s.board).mpr fun c hc0 hc7 => ?_
    exact hall 0 c le_rfl (by norm_num [ROWS]) hc0 hc7

/-- Witness for C5 at the (reachable) initial state. -/
theorem isBoardFull_iff_all_witness :
    isBoardFull initState.board = true ↔
      ∀ r c : Int, 0 ≤ r → r < ROWS → 0 ≤ c → c < COLS →
        initState.board r c ≠ none :=
  isBoardFull_iff_all initState Reachable.init

theorem walk_mirror (b : Board) (color : Player) (dr dc : Int) (fuel : Nat) :
    ∀ r c : Int,
      walk (mirrorBoard b) color dr dc fuel r c
        = (walk b color dr (-dc) fuel r (6 - c)).map fun q => (q.1, 6 - q.2) := by
  induction fuel with
  | zero => intro r c; rfl
  | succ fuel ih =>
    intro r c
    have hR : ROWS = 6 := rfl
    have hC : COLS = 7 := rfl
    have hiff : (0 ≤ r ∧ r < ROWS ∧ 0 ≤ c ∧ c < COLS ∧
          mirrorBoard b r c = some color)
        ↔ (0 ≤ r ∧ r < ROWS ∧ 0 ≤ 6 - c ∧ 6 - c < COLS ∧
          b r (6 - c) = some color) := by
      have hmb : mirrorBoard b r c = b r (6 - c) := rfl
      rw [hmb, hR, hC]
      constructor
      · rintro ⟨a1, a2, a3, a4, a5⟩
        exact ⟨a1, a2, by omega, by omega, a5⟩
      · rintro ⟨a1, a2, a3, a4, a5⟩
        exact ⟨a1, a2, by omega, by omega, a5⟩
    rw [walk, walk]
    by_cases hcond : 0 ≤ r ∧ r < ROWS ∧ 0 ≤ c ∧ c < COLS ∧
        mirrorBoard b r c = some color
    · rw [if_pos hcond, if_pos (hiff.mp hcond), List.map_cons]
      have e1 : (6 : Int) - (6 - c) = c := by ring
      have e2 : (6 : Int) - c + -dc = 6 - (c + dc) := by ring
      rw [e1, e2, ih (r + dr) (c + dc)]
    · rw [if_neg hcond, if_neg (fun hc => hcond (hiff.mpr hc))]
      simp

theorem lineCoords_mirror_length (b : Board) (p : Player)
    (row col dr dc : Int) :
    (lineCoords (mirrorBoard b) p row (6 - col) dr dc).length
      = (lineCoords b p row col dr (-dc)).length := by
  rw [lineCoords, lineCoords]
  simp only [List.length_cons, List.length_append]
  rw [walk_mirror, walk_mirror]
  simp only [List.length_map]
  have e1 : (6 : Int) - (6 - col + dc) = col + -dc := by ring
  have e2 : (6 : Int) - (6 - col - dc) = col - -dc := by ring
  rw [e1, e2]

theorem lineCoords_length_neg (b : Board) (p : Player) (row col dr dc : Int) :
    (lineCoords b p row col (-dr) (-dc)).length
      = (lineCoords b p row col dr dc).length := by
  rw [lineCoords, lineCoords]
  simp only [List.length_cons, List.length_append, neg_neg]
  have e1 : row + -dr = row - dr := by ring
  have e2 : col + -dc = col - dc := by ring
  have e3 : row - -dr = row + dr := by ring
  have e4 : col - -dc = col + dc := by ring
  rw [e1, e2, e3, e4]
  omega

theorem checkWinner_fst (b : Board) (row col : Int) (p : Player) :
    (checkWinner b row col p).1
      = if 4 ≤ (lineCoords b p row col 0 1).length
            ∨ 4 ≤ (lineCoords b p row col 1 0).length
            ∨ 4 ≤ (lineCoords b p row col 1 1).length
            ∨ 4 ≤ (lineCoords b p row col 1 (-1)).length
          then some p else none := by
  by_cases h1 : 4 ≤ (lineCoords b p row col 0 1).length <;>
    by_cases h2 : 4 ≤ (lineCoords b p row col 1 0).length <;>
    by_cases h3 : 4 ≤ (lineCoords b p row col 1 1).length <;>
    by_cases h4 : 4 ≤ (lineCoords b p row col 1 (-1)).length <;>
    simp [checkWinner, directions, checkWinnerAux, h1, h2, h3, h4]

/-- **C8 (counterexample).** On the board where one move at `(2,3)` completed
both diagonals, both the original and the mirrored game report a win, but
the mirrored game's winning coordinates are not the mirror image of the
original's — not even as a set — because mirroring swaps the two diagonal
directions in `_check_winner`'s enumeration order. -/
theorem checkWinner_mirror_counterexample :
    (checkWinner bothDiags 2 3 .red).1.isSome = true ∧
      (checkWinner (mirrorBoard bothDiags) 2 (6 - 3) .red).2
        ≠ (checkWinner bothDiags 2 3 .red).2.map (fun q => (q.1, 6 - q.2)) ∧
      ¬ List.Perm (checkWinner (mirrorBoard bothDiags) 2 (6 - 3) .red).2
        ((checkWinner bothDiags 2 3 .red).2.map fun q => (q.1, 6 - q.2)) := by
  decide

/-- **C8 (amended).** Win detection is symmetric under horizontal mirroring
in the win/no-win sense: `_check_winner` on the column-mirrored board at the
mirrored position reports a win — necessarily by the same player — exactly
when it does on the original board at the original position.  The winning
coordinate list, however, need not be the pointwise mirror of the
original's (the two diagonals swap enumeration ranks and the two walk
directions swap, as the counterexample shows). -/
theorem checkWinner_mirror (b : Board) (row col : Int) (p : Player) :
    (checkWinner (mirrorBoard b) row (6 - col) p).1
      = (checkWinner b row col p).1 := by
  rw [checkWinner_fst, checkWinner_fst]
  rw [lineCoords_mirror_length, lineCoords_mirror_length,
    lineCoords_mirror_length, lineCoords_mirror_length]
  have hh : (lineCoords b p row col 0 (-1)).length
      = (lineCoords b p row col 0 1).length := by
    have h := lineCoords_length_neg b p row col 0 1
    simpa using h
  have hv : (lineCoords b p row col 1 (-0)).length
      = (lineCoords b p row col 1 0).length := by norm_num
  have hd : (lineCoords b p row col 1 (- -1)).length
      = (lineCoords b p row col 1 1).length := by norm_num
  rw [hh, hv, hd]
  exact if_congr (by tauto) rfl rfl

end ConnectFour

namespace TicTacToe

/-- **C10.** Clicking an already-occupied square while the game is running
is a complete no-op: the handler returns before placing a marker or running
the win/draw checks, so board, current player and game-over flag are all
unchanged. -/
theorem occupied_click_noop (s : GameState) (row col : Nat) (m : Mark)
    (hg : s.game_over = false) (hocc : s.board row col = some m) :
    onClick s row col = s := by
  rw [onClick, hg]
  simp [hocc]

/-- Witness for C10: O clicking the occupied corner changes nothing. -/
theorem occupied_click_noop_witness :
    onClick xCornerState 0 0 = xCornerState :=
  occupied_click_noop xCornerState 0 0 .X rfl (by simp [xCornerState, setCell])

end TicTacToe

namespace Calculator

/-- **C9 (the code at the failing input).** Pressing `5 / 0 =` is handled:
the divide-by-zero guard catches the `ZeroDivisionError` and sets the
display to "Error".  But the next press of `+` makes the handler evaluate
`float("Error")`, whose `ValueError` no handler catches: the button handler
propagates an uncaught exception, contradicting the claim. -/
theorem divide_error_then_operator :
    pressSeq ['5', '/', '0', '='] =
        .ok { current_input := "Error", operation := none, stored_value := 5,
              reset_screen := true } ∧
      pressSeq ['5', '/', '0', '=', '+'] = .error .valueError := by
  decide

end Calculator
